import Mathlib

/-!
Verification of the local-search vector store (chunking, catalog bookkeeping,
ANN search scoring and lifecycle) against a shallow embedding of its
TypeScript source.  Pure helpers are translated as Lean functions; the
stateful `VectorStore` class becomes explicit state passing; the external
embedding model and the external ANN backend are parameters supplied by the
caller, exactly as the class consumes them through `generateEmbedding` and
`searchKnn`.
-/

namespace LocalSearch

/-- Whitespace test matching the JavaScript regex class backslash-s on the
ASCII range (space, tab, newline, carriage return, vertical tab, form feed);
the inputs handled here are ASCII text. -/
def isWsChar (c : Char) : Bool :=
  c = ' ' || c = '\t' || c = '\n' || c = '\r' || c = Char.ofNat 11 || c = Char.ofNat 12

/-- After an initial newline has been consumed, greedily consume the longest
prefix of the remaining characters matching whitespace-star followed by a
final newline, returning the characters after the match; `none` when the
separator pattern does not match here.  Together with a leading newline this
is the JavaScript regex used by the chunker to split on blank lines. -/
def sepTail : List Char → Option (List Char)
  | [] => none
  | c :: t =>
    if isWsChar c then
      match sepTail t with
      | some r => some r
      | none => if c = '\n' then some t else none
    else none

/-- Fuel-indexed scanner implementing JavaScript string split on the
blank-line regex: each position is tested for a separator match; matched
separators end the current piece.  The fuel is at least the number of
remaining characters plus one, so the zero-fuel fallback is never reached. -/
def splitBlankAux : Nat → List Char → List Char → List (List Char)
  | 0, rest, acc => [acc.reverse ++ rest]
  | _ + 1, [], acc => [acc.reverse]
  | fuel + 1, c :: rest, acc =>
    if c = '\n' then
      match sepTail rest with
      | some r => acc.reverse :: splitBlankAux fuel r []
      | none => splitBlankAux fuel rest (c :: acc)
    else splitBlankAux fuel rest (c :: acc)

/-- Embeds the source expression text.split on the blank-line regex: the
ordered list of paragraphs of the input. -/
def splitBlank (text : String) : List String :=
  (splitBlankAux (text.data.length + 1) text.data []).map (fun l => String.mk l)

/-- JavaScript substring from index zero to an exclusive end index, clamped
to the string length: the truncation primitive used by the chunker. -/
def jsSubstring (s : String) (n : Nat) : String :=
  String.mk (s.data.take n)

/-- The accumulation loop of VectorStore.chunkText, translated statement by
statement: the first argument of the triple of list arguments is the
remaining paragraphs, then the completed chunks, then the running buffer
currentChunk.  The guard compares the plain concatenation of buffer and
paragraph against maxChunkSize, while a successful append joins them with a
two-character double newline whenever the buffer is nonempty — exactly as
the source does. -/
def chunkLoop (maxChunkSize : Nat) : List String → List String → String → List String
  | [], chunks, currentChunk =>
    if currentChunk = "" then chunks else chunks ++ [currentChunk]
  | p :: ps, chunks, currentChunk =>
    if (currentChunk ++ p).length ≤ maxChunkSize then
      chunkLoop maxChunkSize ps chunks
        (currentChunk ++ (if currentChunk = "" then "" else "\n\n") ++ p)
    else
      if currentChunk = "" then
        chunkLoop maxChunkSize ps (chunks ++ [jsSubstring p maxChunkSize]) ""
      else
        chunkLoop maxChunkSize ps (chunks ++ [currentChunk]) p

/-- VectorStore.chunkText from the source: split the text on blank lines,
greedily accumulate paragraphs, truncate an oversized paragraph met with an
empty buffer, flush the final buffer.  The source returns the chunk list
as built, with no fallback for an empty result. -/
def chunkText (text : String) (maxChunkSize : Nat) : List String :=
  chunkLoop maxChunkSize (splitBlank text) [] ""

/-- The simplified copy of the chunking function kept in the repository's
test suite: identical to chunkText except that a zero-chunk result is
replaced by a single chunk holding the original text. -/
def chunkTextTest (text : String) (maxChunkSize : Nat) : List String :=
  match chunkText text maxChunkSize with
  | [] => [text]
  | chunks => chunks

/-- A chunk is within the bound actually enforced by the loop, or it is one
of the input paragraphs verbatim. -/
def GoodChunk (maxChunkSize : Nat) (paras : List String) (c : String) : Prop :=
  c.length ≤ maxChunkSize + 2 ∨ c ∈ paras

/-- The Document record stored in the catalog, one per indexed chunk:
integer id (catalog index), source file path, chunk ordinal within the
file, chunk text, and the optional embedding vector. -/
structure Document where
  id : Nat
  file : String
  chunkId : Nat
  text : String
  vector : Option (List ℚ)
deriving DecidableEq

/-- The mutable fields of the VectorStore class after initialization:
the document catalog, the points inserted into the ANN backend since the
last reinitialization (vector paired with the integer handle passed to
addPoint), and the file-extension counters object. -/
structure VectorStore where
  documents : List Document
  index : List (List ℚ × Nat)
  fileTypes : List (String × Nat)
deriving DecidableEq

/-- The store as produced by initialization or by clear: everything empty. -/
def emptyVectorStore : VectorStore :=
  ⟨[], [], []⟩

/-- The external collaborators the class consumes: the embedding model
behind generateEmbedding (returning none when the model call fails, as the
source returns null), and the composition of path.extname with toLowerCase
used for the file-type statistics (an external path library call). -/
structure Env where
  embed : String → Option (List ℚ)
  extnameLower : String → String

/-- Lookup in the JavaScript statistics object: the count stored under a
key, zero when the key is absent. -/
def extCount : List (String × Nat) → String → Nat
  | [], _ => 0
  | kv :: rest, k => if kv.1 = k then kv.2 else extCount rest k

/-- The update fileTypes[ext] = (fileTypes[ext] or 0) + 1 from the head of
addDocument: increment the entry when the key is present, otherwise add it
with count one. -/
def bumpExt (m : List (String × Nat)) (k : String) : List (String × Nat) :=
  if m.any (fun kv => kv.1 = k) then
    m.map (fun kv => if kv.1 = k then (kv.1, kv.2 + 1) else kv)
  else
    m ++ [(k, 1)]

/-- The per-chunk loop of addDocument: for the chunk at ordinal i, build the
document with id equal to the current catalog length, ask the embedder for
a vector; on success record the point in the ANN index under that id and
push the document, on failure skip the chunk and continue. -/
def addChunks (env : Env) (file : String) : List String → Nat → VectorStore → VectorStore
  | [], _, s => s
  | c :: cs, i, s =>
    match env.embed c with
    | some v =>
      addChunks env file cs (i + 1)
        ⟨s.documents ++ [⟨s.documents.length, file, i, c, some v⟩],
         s.index ++ [(v, s.documents.length)],
         s.fileTypes⟩
    | none => addChunks env file cs (i + 1) s

/-- VectorStore.addDocument: bump the extension counter for the file once,
chunk the text with the default maximum size 512, then run the per-chunk
loop. -/
def addDocument (env : Env) (file text : String) (s : VectorStore) : VectorStore :=
  addChunks env file (chunkText text 512) 0
    ⟨s.documents, s.index, bumpExt s.fileTypes (env.extnameLower file)⟩

/-- The single error VectorStore.search can throw: the query embedding
could not be generated. -/
inductive SearchError where
  | embeddingUnavailable
deriving DecidableEq

/-- One element of the array VectorStore.search resolves: the similarity
score and the catalog document looked up by the ANN handle (none models a
JavaScript out-of-bounds access yielding undefined). -/
structure SearchResult where
  score : ℚ
  document : Option Document
deriving DecidableEq

/-- VectorStore.search: an empty catalog answers with the empty list before
the embedder is consulted; a failed query embedding throws; otherwise the
ANN backend is queried for min(numResults, catalog size) neighbours, each
returned (handle, distance) pair is scored as one over one plus distance
and hydrated against the catalog, and candidates scoring below the
threshold are filtered out.  The ANN backend searchKnn is the function
argument ann, returning handle-distance pairs. -/
def search (env : Env) (ann : List ℚ → Nat → List (Nat × ℚ)) (s : VectorStore)
    (query : String) (numResults : Nat) (threshold : ℚ) :
    Except SearchError (List SearchResult) :=
  if s.documents.length = 0 then Except.ok []
  else
    match env.embed query with
    | none => Except.error SearchError.embeddingUnavailable
    | some qv =>
      let k := min numResults s.documents.length
      Except.ok (((ann qv k).map
        (fun nd => SearchResult.mk (1 / (1 + nd.2)) (s.documents.get? nd.1))).filter
        (fun r => threshold ≤ r.score))

/-- VectorStore.clear: empty the catalog, reinitialize the ANN index (hence
no points remain), and reset the file-type statistics. -/
def clear (_s : VectorStore) : VectorStore :=
  ⟨[], [], []⟩

/-- The record VectorStore.getStats returns. -/
structure StoreStats where
  documentCount : Nat
  fileTypes : List (String × Nat)
deriving DecidableEq

/-- VectorStore.getStats. -/
def getStats (s : VectorStore) : StoreStats :=
  ⟨s.documents.length, s.fileTypes⟩

/-- The loop of VectorStore.getIndexedFiles: a JavaScript Set keeps the
first occurrence of each file in insertion order. -/
def getIndexedFilesAux : List Document → List String → List String
  | [], acc => acc.reverse
  | d :: ds, acc =>
    if d.file ∈ acc then getIndexedFilesAux ds acc
    else getIndexedFilesAux ds (d.file :: acc)

/-- VectorStore.getIndexedFiles: the distinct source files of the catalog. -/
def getIndexedFiles (s : VectorStore) : List String :=
  getIndexedFilesAux s.documents []

/-- A sequence of addDocument calls, each a (file, text) pair, applied in
order. -/
def addMany (env : Env) : List (String × String) → VectorStore → VectorStore
  | [], s => s
  | ft :: rest, s => addMany env rest (addDocument env ft.1 ft.2 s)

/-- The observable invariant the coordinator maintains: document ids are
exactly the positions zero to length minus one, every stored document has a
vector, and the handles inserted into the ANN index are exactly those same
ids. -/
abbrev StoreInv (s : VectorStore) : Prop :=
  s.documents.map (fun d => d.id) = List.range s.documents.length ∧
  (∀ d ∈ s.documents, d.vector.isSome = true) ∧
  s.index.map Prod.snd = List.range s.documents.length

/-- Test fixture: an embedder that always answers with the same
one-dimensional vector, with a constant lowercase extension. -/
def envA : Env :=
  ⟨fun _ => some [(1 : ℚ)], fun _ => ".txt"⟩

/-- Test fixture: an embedder whose model call always fails. -/
def envNone : Env :=
  ⟨fun _ => none, fun _ => ".txt"⟩

/-- Test fixture: an ANN backend that returns no neighbours. -/
def annZero : List ℚ → Nat → List (Nat × ℚ) :=
  fun _ _ => []

/-- Test fixture: an ANN backend that returns handle zero at distance one. -/
def annOne : List ℚ → Nat → List (Nat × ℚ) :=
  fun _ _ => [(0, 1)]

/-- Test fixture: a catalog document with id zero and a vector. -/
def docW : Document :=
  ⟨0, "a.txt", 0, "hi", some [(1 : ℚ)]⟩

/-- Test fixture: a store holding exactly docW, in catalog and index. -/
def sW : VectorStore :=
  ⟨[docW], [([(1 : ℚ)], 0)], [(".txt", 1)]⟩

/-- Test fixture: two paragraphs of 257 characters separated by one blank
line, so that each paragraph fits in 512 characters but their join does
not — addDocument produces exactly two chunks from it. -/
def textTwoPars : String :=
  String.mk (List.replicate 257 'A' ++ '\n' :: '\n' :: List.replicate 257 'B')

theorem chunkLoop_sound (maxChunkSize : Nat) (paras : List String) :
    ∀ (ps chunks : List String) (cc : String),
      (∀ c ∈ chunks, GoodChunk maxChunkSize paras c) →
      (cc = "" ∨ GoodChunk maxChunkSize paras cc) →
      (∀ p ∈ ps, p ∈ paras) →
      ∀ c ∈ chunkLoop maxChunkSize ps chunks cc, GoodChunk maxChunkSize paras c := by
  intro ps
  induction ps with
  | nil =>
    intro chunks cc hchunks hcc _ c hc
    simp only [chunkLoop] at hc
    by_cases h0 : cc = ""
    · rw [if_pos h0] at hc
      exact hchunks c hc
    · rw [if_neg h0] at hc
      rcases List.mem_append.mp hc with h | h
      · exact hchunks c h
      · rcases List.mem_singleton.mp h with rfl
        exact hcc.resolve_left h0
  | cons p ps ih =>
    intro chunks cc hchunks hcc hsub c hc
    have hpmem : p ∈ paras := hsub p (List.mem_cons_self p ps)
    have hsub' : ∀ q ∈ ps, q ∈ paras := fun q hq => hsub q (List.mem_cons_of_mem p hq)
    simp only [chunkLoop] at hc
    by_cases hle : (cc ++ p).length ≤ maxChunkSize
    · rw [if_pos hle] at hc
      refine ih chunks _ hchunks ?_ hsub' c hc
      right
      by_cases h0 : cc = ""
      · subst h0
        right
        simpa using hpmem
      · left
        rw [if_neg h0]
        have : cc.length + p.length ≤ maxChunkSize := by
          simpa [String.length_append] using hle
        have h2 : ("\n\n" : String).length = 2 := rfl
        simp only [String.length_append]
        omega
    · rw [if_neg hle] at hc
      by_cases h0 : cc = ""
      · rw [if_pos h0] at hc
        refine ih _ "" ?_ (Or.inl rfl) hsub' c hc
        intro d hd
        rcases List.mem_append.mp hd with h | h
        · exact hchunks d h
        · rcases List.mem_singleton.mp h with rfl
          left
          have : (jsSubstring p maxChunkSize).length ≤ maxChunkSize := by
            simp only [jsSubstring, String.length, String.mk]
            exact List.length_take_le maxChunkSize p.data
          omega
      · rw [if_neg h0] at hc
        refine ih _ p ?_ (Or.inr (Or.inr hpmem)) hsub' c hc
        intro d hd
        rcases List.mem_append.mp hd with h | h
        · exact hchunks d h
        · rcases List.mem_singleton.mp h with rfl
          exact hcc.resolve_left h0

/-- Claim C1 (amended): for maxChunkSize > 0, every chunk returned by
chunkText has length at most maxChunkSize + 2, or is verbatim one of the
paragraphs the input was split into.  The original bound maxChunkSize fails
because the loop's guard measures the buffer and the next paragraph without
the two-character double-newline joiner it then inserts, and an oversized
lone paragraph is truncated only when it meets an empty buffer. -/
theorem chunkText_length_bound (text : String) (maxChunkSize : Nat)
    (_hpos : 0 < maxChunkSize) :
    ∀ c ∈ chunkText text maxChunkSize,
      c.length ≤ maxChunkSize + 2 ∨ c ∈ splitBlank text := by
  intro c hc
  exact chunkLoop_sound maxChunkSize (splitBlank text) (splitBlank text) [] ""
    (by intro d hd; cases hd) (Or.inl rfl) (fun p hp => hp) c hc

/-- Witness for the amended C1 bound at a concrete input. -/
theorem chunkText_length_bound_witness :
    ("AAA\n\nAAA" : String).length ≤ 6 + 2 ∨ ("AAA\n\nAAA" : String) ∈ splitBlank "AAA\n\nAAA" :=
  chunkText_length_bound "AAA\n\nAAA" 6 (by decide) "AAA\n\nAAA" (by decide)

/-- Claim C1 counterexample: with maxChunkSize = 6 the two three-character
paragraphs pass the guard (3 + 3 ≤ 6) yet are joined with a double newline,
producing a single chunk of length 8 — neither at most 6 nor exactly 6, so
the claimed bound and its truncation exception both fail. -/
theorem chunkText_exceeds_max :
    chunkText "AAA\n\nAAA" 6 = ["AAA\n\nAAA"] ∧ ("AAA\n\nAAA" : String).length = 8 := by
  decide

/-- Claim C2 counterexample: on the three five-character paragraphs with
maxChunkSize = 6 the code returns two chunks, not the three the claim
expects, because the first two paragraphs pass the separator-blind guard
and are joined. -/
theorem chunkText_scenarioB_not_three :
    chunkText "P1.\n\nP2.\n\nP3." 6 ≠ ["P1.", "P2.", "P3."] := by
  decide

/-- Claim C2 (amended): chunkText on that input returns exactly the two
chunks, the first joining the first two paragraphs with a double newline. -/
theorem chunkText_scenarioB :
    chunkText "P1.\n\nP2.\n\nP3." 6 = ["P1.\n\nP2.", "P3."] := by
  decide

/-- Claim C3: the production chunkText returns the empty list on the empty
string — zero chunks — while the simplified copy of the function in the
repository's own test suite (whose test asserts one empty chunk) returns
the single empty chunk the spec requires.  The production code thus
contradicts the repository's test and the spec. -/
theorem chunkText_empty_input :
    chunkText "" 512 = [] ∧ chunkTextTest "" 512 = [""] := by
  decide

theorem addChunks_fileTypes (env : Env) (file : String) :
    ∀ (cs : List String) (i : Nat) (s : VectorStore),
      (addChunks env file cs i s).fileTypes = s.fileTypes := by
  intro cs
  induction cs with
  | nil => intro i s; rfl
  | cons c cs ih =>
    intro i s
    simp only [addChunks]
    cases env.embed c with
    | none => exact ih (i + 1) s
    | some v => exact ih (i + 1) _

theorem extCount_map_bump (k : String) :
    ∀ m : List (String × Nat),
      extCount (m.map (fun kv => if kv.1 = k then (kv.1, kv.2 + 1) else kv)) k =
        extCount m k + (if m.any (fun kv => kv.1 = k) then 1 else 0) := by
  intro m
  induction m with
  | nil => rfl
  | cons kv rest ih =>
    by_cases hk : kv.1 = k
    · simp [extCount, hk, List.any_cons]
    · have hdk : (decide (kv.1 = k)) = false := by simp [hk]
      simp only [List.map_cons, extCount, if_neg hk, List.any_cons, hdk, Bool.false_or, ih]

theorem extCount_map_other (k k2 : String) (hne : k2 ≠ k) :
    ∀ m : List (String × Nat),
      extCount (m.map (fun kv => if kv.1 = k then (kv.1, kv.2 + 1) else kv)) k2 =
        extCount m k2 := by
  intro m
  induction m with
  | nil => rfl
  | cons kv rest ih =>
    have hf : ¬ k = k2 := fun h => hne h.symm
    by_cases hk : kv.1 = k
    · simp [extCount, hk, hf, ih]
    · by_cases h2 : kv.1 = k2
      · simp [extCount, hk, h2, hne]
      · simp [extCount, hk, h2, ih]

theorem extCount_zero_of_not_any (k : String) :
    ∀ m : List (String × Nat), m.any (fun kv => kv.1 = k) = false → extCount m k = 0 := by
  intro m
  induction m with
  | nil => intro _; rfl
  | cons kv rest ih =>
    intro h
    rw [List.any_cons, Bool.or_eq_false_iff] at h
    have hk : ¬ kv.1 = k := by simpa using h.1
    simp [extCount, hk, ih h.2]

theorem extCount_append_single (k k2 : String) (n : Nat) :
    ∀ m : List (String × Nat),
      extCount (m ++ [(k, n)]) k2 =
        (if m.any (fun kv => kv.1 = k2) then extCount m k2 else extCount [(k, n)] k2) := by
  intro m
  induction m with
  | nil => simp
  | cons kv rest ih =>
    by_cases h2 : kv.1 = k2
    · simp [extCount, h2, List.any_cons]
    · have hdk : (decide (kv.1 = k2)) = false := by simp [h2]
      have h3 : ∀ l : List (String × Nat), extCount (kv :: l) k2 = extCount l k2 := by
        intro l
        simp only [extCount, if_neg h2]
      rw [List.cons_append, h3, ih]
      simp only [List.any_cons, hdk, Bool.false_or, h3]

theorem extCount_bumpExt (m : List (String × Nat)) (k k2 : String) :
    extCount (bumpExt m k) k2 = extCount m k2 + (if k2 = k then 1 else 0) := by
  unfold bumpExt
  by_cases hany : m.any (fun kv => kv.1 = k)
  · rw [if_pos hany]
    by_cases hk : k2 = k
    · subst hk
      rw [extCount_map_bump k2 m, if_pos hany, if_pos rfl]
    · rw [extCount_map_other k k2 hk m, if_neg hk]
      rfl
  · rw [if_neg hany]
    have hfalse : m.any (fun kv => kv.1 = k) = false := Bool.eq_false_iff.mpr hany
    have hzero : extCount m k = 0 := extCount_zero_of_not_any k m hfalse
    by_cases hk : k2 = k
    · subst hk
      rw [extCount_append_single k2 k2 1 m, if_neg (by simp [hfalse]), hzero, if_pos rfl]
      simp [extCount]
    · rw [extCount_append_single k k2 1 m, if_neg hk]
      have hsingle : extCount [(k, 1)] k2 = 0 := by
        have hf : ¬ k = k2 := fun h => hk h.symm
        simp [extCount, hf]
      by_cases h2 : m.any (fun kv => kv.1 = k2)
      · rw [if_pos h2]
        rfl
      · rw [if_neg h2, hsingle, extCount_zero_of_not_any k2 m (Bool.eq_false_iff.mpr h2)]

/-- Claim C4 (amended): one addDocument call increments the extension
counter of the file's lowercase extension exactly once — it is a count of
files seen per extension, not of chunks — and leaves every other
extension's count unchanged, regardless of how many chunks the call
appends to the catalog. -/
theorem addDocument_extCount (env : Env) (file text : String) (s : VectorStore)
    (k : String) :
    extCount (addDocument env file text s).fileTypes k =
      extCount s.fileTypes k + (if k = env.extnameLower file then 1 else 0) := by
  unfold addDocument
  rw [addChunks_fileTypes]
  exact extCount_bumpExt s.fileTypes (env.extnameLower file) k

set_option maxRecDepth 100000 in
/-- Claim C4 counterexample: a single addDocument call that appends two
chunks (two 257-character paragraphs, each embedded successfully) raises
the extension count of the file's extension to 1, not to the chunk count
2 the claim requires. -/
theorem addDocument_ext_once :
    (addDocument envA "doc.txt" textTwoPars emptyVectorStore).documents.length = 2 ∧
    extCount (addDocument envA "doc.txt" textTwoPars emptyVectorStore).fileTypes ".txt" = 1 := by
  decide

theorem search_mem_spec (env : Env) (ann : List ℚ → Nat → List (Nat × ℚ))
    (s : VectorStore) (query : String) (numResults : Nat) (threshold : ℚ)
    (rs : List SearchResult)
    (hok : search env ann s query numResults threshold = Except.ok rs) :
    ∀ r ∈ rs, threshold ≤ r.score ∧
      ∃ qv p, env.embed query = some qv ∧
        p ∈ ann qv (min numResults s.documents.length) ∧
        r.score = 1 / (1 + p.2) ∧ r.document = s.documents.get? p.1 := by
  unfold search at hok
  by_cases hlen : s.documents.length = 0
  · rw [if_pos hlen] at hok
    cases hok
    intro r hr
    cases hr
  · rw [if_neg hlen] at hok
    cases hemb : env.embed query with
    | none =>
      rw [hemb] at hok
      cases hok
    | some qv =>
      rw [hemb] at hok
      cases hok
      intro r hr
      rcases List.mem_filter.mp hr with ⟨hmap, hthr⟩
      rcases List.mem_map.mp hmap with ⟨nd, hnd, hr_eq⟩
      refine ⟨of_decide_eq_true hthr, qv, nd, rfl, hnd, ?_, ?_⟩
      · rw [← hr_eq]
      · rw [← hr_eq]

/-- Claim C5: every result search returns has score one over one plus the
distance the ANN backend reported for that candidate, hydrated by that
candidate's handle, and no result scores below the threshold argument. -/
theorem search_score_threshold (env : Env) (ann : List ℚ → Nat → List (Nat × ℚ))
    (s : VectorStore) (query : String) (numResults : Nat) (threshold : ℚ)
    (rs : List SearchResult)
    (hok : search env ann s query numResults threshold = Except.ok rs) :
    ∀ r ∈ rs, threshold ≤ r.score ∧
      ∃ qv p, env.embed query = some qv ∧
        p ∈ ann qv (min numResults s.documents.length) ∧
        r.score = 1 / (1 + p.2) ∧ r.document = s.documents.get? p.1 :=
  search_mem_spec env ann s query numResults threshold rs hok

/-- Witness for C5 at a one-document store whose ANN backend reports
handle 0 at distance 1, so the single result scores one half. -/
theorem search_score_threshold_witness :
    (1 : ℚ) / 2 ≤ (SearchResult.mk ((1 : ℚ) / 2) (some docW)).score ∧
      ∃ qv p, envA.embed "hi" = some qv ∧
        p ∈ annOne qv (min 5 sW.documents.length) ∧
        (SearchResult.mk ((1 : ℚ) / 2) (some docW)).score = 1 / (1 + p.2) ∧
        (SearchResult.mk ((1 : ℚ) / 2) (some docW)).document = sW.documents.get? p.1 :=
  search_score_threshold envA annOne sW "hi" 5 ((1 : ℚ) / 2)
    [SearchResult.mk ((1 : ℚ) / 2) (some docW)]
    (by norm_num [search, envA, annOne, sW, docW, List.filter])
    (SearchResult.mk ((1 : ℚ) / 2) (some docW)) (List.mem_singleton.mpr rfl)

/-- Claim C6 counterexample: with an empty catalog, search answers with the
empty result list even though the embedder cannot produce any vector — the
empty-catalog early return precedes the embedding attempt, so no error is
raised. -/
theorem search_empty_catalog_no_error :
    search envNone annZero emptyVectorStore "q" 5 (7 / 10) = Except.ok [] ∧
      envNone.embed "q" = none :=
  ⟨rfl, rfl⟩

/-- Claim C6 (amended): when the catalog is non-empty and the embedder
cannot produce a vector for the query, search fails with the
embedding-unavailable error instead of returning results; on an empty
catalog it returns the empty list without consulting the embedder. -/
theorem search_embed_failure (env : Env) (ann : List ℚ → Nat → List (Nat × ℚ))
    (s : VectorStore) (query : String) (numResults : Nat) (threshold : ℚ)
    (hne : s.documents ≠ []) (hemb : env.embed query = none) :
    search env ann s query numResults threshold =
      Except.error SearchError.embeddingUnavailable := by
  unfold search
  have hlen : ¬ s.documents.length = 0 := by
    simpa [List.length_eq_zero] using hne
  rw [if_neg hlen, hemb]

/-- Witness for the amended C6 at a non-empty store with a failing
embedder. -/
theorem search_embed_failure_witness :
    search envNone annZero sW "q" 5 (7 / 10) =
      Except.error SearchError.embeddingUnavailable :=
  search_embed_failure envNone annZero sW "q" 5 (7 / 10) (by decide) rfl

theorem addChunks_texts (env : Env) (file : String) :
    ∀ (cs : List String) (i : Nat) (s : VectorStore),
      (addChunks env file cs i s).documents.map (fun d => d.text) =
        s.documents.map (fun d => d.text) ++ cs.filter (fun c => (env.embed c).isSome) ∧
      (addChunks env file cs i s).index.map Prod.fst =
        s.index.map Prod.fst ++ cs.filterMap env.embed := by
  intro cs
  induction cs with
  | nil => intro i s; simp [addChunks]
  | cons c cs ih =>
    intro i s
    simp only [addChunks]
    cases hemb : env.embed c with
    | none =>
      rcases ih (i + 1) s with ⟨h1, h2⟩
      constructor
      · rw [h1, List.filter_cons, if_neg (by simp [hemb])]
      · rw [h2, List.filterMap_cons, hemb]
    | some v =>
      rcases ih (i + 1)
        ⟨s.documents ++ [⟨s.documents.length, file, i, c, some v⟩],
         s.index ++ [(v, s.documents.length)], s.fileTypes⟩ with ⟨h1, h2⟩
      constructor
      · rw [h1, List.filter_cons, if_pos (by simp [hemb])]
        simp
      · rw [h2, List.filterMap_cons, hemb]
        simp

/-- Claim C7: during one addDocument call, exactly the chunks whose
embedding succeeds are appended to the catalog, in chunk order, after the
documents already present (no rollback), and the ANN index receives exactly
the vectors of those same chunks — a chunk whose embedding fails appears in
neither, while processing continues with the remaining chunks. -/
theorem addDocument_partial_failure (env : Env) (file text : String) (s : VectorStore) :
    (addDocument env file text s).documents.map (fun d => d.text) =
      s.documents.map (fun d => d.text) ++
        (chunkText text 512).filter (fun c => (env.embed c).isSome) ∧
    (addDocument env file text s).index.map Prod.fst =
      s.index.map Prod.fst ++ (chunkText text 512).filterMap env.embed := by
  unfold addDocument
  exact addChunks_texts env file (chunkText text 512) 0
    ⟨s.documents, s.index, bumpExt s.fileTypes (env.extnameLower file)⟩

theorem addChunks_inv (env : Env) (file : String) :
    ∀ (cs : List String) (i : Nat) (s : VectorStore),
      StoreInv s → StoreInv (addChunks env file cs i s) := by
  intro cs
  induction cs with
  | nil => intro i s hs; exact hs
  | cons c cs ih =>
    intro i s hs
    simp only [addChunks]
    cases hemb : env.embed c with
    | none => exact ih (i + 1) s hs
    | some v =>
      refine ih (i + 1) _ ?_
      rcases hs with ⟨hid, hvec, hidx⟩
      refine ⟨?_, ?_, ?_⟩
      · simp only [List.map_append, List.length_append, List.map_cons, List.map_nil,
          List.length_cons, List.length_nil]
        rw [hid]
        rw [Nat.add_zero, List.range_succ]
      · intro d hd
        rcases List.mem_append.mp hd with h | h
        · exact hvec d h
        · rcases List.mem_singleton.mp h with rfl
          rfl
      · simp only [List.map_append, List.length_append, List.map_cons, List.map_nil,
          List.length_cons, List.length_nil]
        rw [hidx]
        rw [Nat.add_zero, List.range_succ]

theorem addDocument_inv (env : Env) (file text : String) (s : VectorStore)
    (hs : StoreInv s) : StoreInv (addDocument env file text s) := by
  unfold addDocument
  exact addChunks_inv env file (chunkText text 512) 0
    ⟨s.documents, s.index, bumpExt s.fileTypes (env.extnameLower file)⟩ hs

theorem emptyVectorStore_inv : StoreInv emptyVectorStore :=
  ⟨rfl, fun d hd => absurd hd (List.not_mem_nil d), rfl⟩

theorem addMany_inv (env : Env) :
    ∀ (calls : List (String × String)) (s : VectorStore),
      StoreInv s → StoreInv (addMany env calls s) := by
  intro calls
  induction calls with
  | nil => intro s hs; exact hs
  | cons ft rest ih =>
    intro s hs
    exact ih (addDocument env ft.1 ft.2 s) (addDocument_inv env ft.1 ft.2 s hs)

/-- Claim C8: starting from the empty store, after any sequence of
addDocument calls — arbitrary embedder, so some chunk embeddings may have
failed and been skipped — the assigned document ids are exactly
0, 1, ..., N-1 where N is the number of stored chunks. -/
theorem addMany_ids_range (env : Env) (calls : List (String × String)) :
    (addMany env calls emptyVectorStore).documents.map (fun d => d.id) =
      List.range (addMany env calls emptyVectorStore).documents.length :=
  (addMany_inv env calls emptyVectorStore emptyVectorStore_inv).1

/-- Claim C9: clear is idempotent and resets the observable state — after
one clear (and equally after two) the stats report zero documents and an
empty extension mapping, and the list of indexed files is empty, whatever
the store held before. -/
theorem clear_idempotent_resets (s : VectorStore) :
    clear (clear s) = clear s ∧
    getStats (clear s) = StoreStats.mk 0 [] ∧
    getIndexedFiles (clear s) = [] :=
  ⟨rfl, rfl, rfl⟩

/-- Claim C10: every public operation preserves the coordinator invariant —
the i-th stored document has id i and a defined vector, and the handles
inserted into the ANN index since the last clear are exactly those ids —
and under the ANN contract that returned handles are among the catalog
positions, every result a search hydrates holds a defined document. -/
theorem vectorStore_invariant (env : Env) (ann : List ℚ → Nat → List (Nat × ℚ))
    (s : VectorStore) :
    (∀ file text, StoreInv s → StoreInv (addDocument env file text s)) ∧
    StoreInv (clear s) ∧
    StoreInv emptyVectorStore ∧
    (∀ query numResults threshold rs,
      search env ann s query numResults threshold = Except.ok rs →
      (∀ qv, env.embed query = some qv →
        ∀ p ∈ ann qv (min numResults s.documents.length), p.1 < s.documents.length) →
      ∀ r ∈ rs, r.document.isSome = true) := by
  refine ⟨fun file text hs => addDocument_inv env file text s hs,
    ⟨rfl, fun d hd => absurd hd (List.not_mem_nil d), rfl⟩,
    emptyVectorStore_inv, ?_⟩
  intro query numResults threshold rs hok hrange r hr
  rcases search_mem_spec env ann s query numResults threshold rs hok r hr with
    ⟨_, qv, p, hq, hp, _, hdoc⟩
  have hlt : p.1 < s.documents.length := hrange qv hq p hp
  rw [hdoc, List.get?_eq_get hlt]
  rfl

/-- Witness for C10: the invariant holds after adding a document to the
empty store through an always-succeeding embedder. -/
theorem vectorStore_invariant_witness :
    StoreInv (addDocument envA "a.txt" "hi" emptyVectorStore) :=
  (vectorStore_invariant envA annZero emptyVectorStore).1 "a.txt" "hi" (by decide)

end LocalSearch
